import Mathlib

/-!
Verification of the charLCD 20x4 driver (`src/charLCD20_4.py`).

The driver class `CHAR_LCD_20_4` is shallowly embedded here:

* a Python character is its code point, a `Nat`;
* a cell of `self.ddram_value` is a `Cell`: the constructor fills the grid
  with the one-character *string* `" "` (`Cell.chrStr`), while `set_row`
  stores integer character codes (`Cell.code n`); Python's `!=` between an
  `int` and a `str` is always `True`, which `pyNe` reproduces;
* the mutable fields of the instance form the record `LCDState`;
* bus traffic is an explicit trace: `send`/`write4bits`/`write`/`pulse_enable`
  return the list of bytes handed to `i2c.writeto`, and the higher-level
  methods (`refresh`, `clear_display`, ...) return the list of
  `(byte, mode)` pairs passed to `send`.
-/

set_option maxRecDepth 8000
set_option maxHeartbeats 1000000

namespace CharLCD

/-- A value stored in a `ddram_value` cell.  `chrStr` is the Python string
`" "` placed there by `__init__`; `code n` is an integer character code
stored by `set_row`. -/
inductive Cell where
  | chrStr : Cell
  | code (n : Nat) : Cell
deriving Repr, DecidableEq

/-- Python's `x != cell` where `x` is an `int` and `cell` is a list element:
an `int` compares unequal to every `str`, and to a different `int`. -/
def pyNe (x : Nat) (c : Cell) : Bool :=
  match c with
  | .chrStr => true
  | .code m => x != m

/-- The integer a cell contributes when `refresh` passes it to `write_ram`.
(`refresh` only ever reads cells previously written by `set_row`, which are
`code` cells; a `chrStr` cell would raise a `TypeError` in `send`, and we
give it the space code 32 as an unreachable default.) -/
def Cell.data : Cell → Nat
  | .chrStr => 32
  | .code n => n

/-- The mutable fields of a `CHAR_LCD_20_4` instance. -/
structure LCDState where
  backlight : Nat
  ddram_map : List (List Nat)
  cursor_loc : Nat × Nat
  ddram_value : List (List Cell)
  refresh_loc : List (Nat × Nat)
deriving Repr, DecidableEq

/-- `self.ddram_map[r][c]`. -/
def mapAddr (s : LCDState) (r c : Nat) : Nat :=
  ((s.ddram_map.getD r []).getD c 0)

/-- `self.ddram_value[row]`. -/
def rowVals (s : LCDState) (r : Nat) : List Cell :=
  s.ddram_value.getD r []

/-- `self.ddram_value[row][col]`. -/
def cellAt (s : LCDState) (r c : Nat) : Cell :=
  (rowVals s r).getD c Cell.chrStr

/-- The state built by `__init__` (lines 81-107): backlight on, the four
DDRAM address ranges `range(128,148)`, `range(192,212)`, `range(148,168)`,
`range(212,232)`, cursor at the origin, every `ddram_value` cell the string
`" "`, and an empty `refresh_loc` list.  The constructor then issues bus
traffic (two raw nibbles, `clear_display`, `set_display_control`), none of
which changes these fields further. -/
def initState : LCDState :=
  { backlight := 8
    ddram_map := [List.range' 128 20, List.range' 192 20,
                  List.range' 148 20, List.range' 212 20]
    cursor_loc := (0, 0)
    ddram_value := List.replicate 4 (List.replicate 20 Cell.chrStr)
    refresh_loc := [] }

/-! ## Byte transport (`send`, `write4bits`, `write`, `pulse_enable`)

These methods only read `self.backlight`, so they are parametrised by the
backlight bits `bl` and return the trace of bytes written to the bus. -/

/-- `write(data)`: one bus write of `data | self.backlight`. -/
def write (bl data : Nat) : List Nat :=
  [data ||| bl]

/-- `pulse_enable(data)`: `write(data | ENABLE)` then `write(data & ~ENABLE)`.
`ENABLE = 4`; Python's `data & ~4` clears bit 2, i.e. subtracts `data &&& 4`. -/
def pulse_enable (bl data : Nat) : List Nat :=
  write bl (data ||| 4) ++ write bl (data - (data &&& 4))

/-- `write4bits(data)`: `write(data)` then `pulse_enable(data)`. -/
def write4bits (bl data : Nat) : List Nat :=
  write bl data ++ pulse_enable bl data

/-- `send(data, mode)`: high nibble `data & 0xF0`, low nibble
`(data << 4) & 0xF0`, each OR'd with the mode and written via `write4bits`. -/
def send (bl data mode : Nat) : List Nat :=
  write4bits bl ((data &&& 240) ||| mode) ++
  write4bits bl (((data <<< 4) &&& 240) ||| mode)

/-- Reconstruction of `(byte, mode)` from the two setup writes of a `send`
trace (positions 0 and 3): the high nibbles of the two setup bytes are the
two nibbles of the byte, and bit 0 of the first is the mode bit. -/
def decodeSend (w0 w3 : Nat) : Nat × Nat :=
  ((w0 &&& 240) ||| ((w3 &&& 240) >>> 4), w0 &&& 1)

/-! ## Stateful methods

Each returns the successor state together with the list of `(data, mode)`
pairs it passes to `send`. -/

/-- `set_ddram_addr(addr)` sends `SET_DDRAM | addr = 128 | addr` as a
command; this is the `(data, mode)` pair it hands to `send`. -/
def set_ddram_addr_evt (addr : Nat) : Nat × Nat :=
  (128 ||| addr, 0)

/-- `write_ram(data)` sends `data` with `mode = DATA = 1`. -/
def write_ram_evt (data : Nat) : Nat × Nat :=
  (data, 1)

/-- `refresh()` (lines 283-291): for each `loc` in `refresh_loc`, in order,
`set_ddram_addr(ddram_map[loc[0]][loc[1]])` then
`write_ram(ddram_value[loc[0]][loc[1]])`; finally `refresh_loc.clear()`. -/
def refresh (s : LCDState) : LCDState × List (Nat × Nat) :=
  ({ s with refresh_loc := [] },
   s.refresh_loc.flatMap fun loc =>
     [set_ddram_addr_evt (mapAddr s loc.1 loc.2),
      write_ram_evt (cellAt s loc.1 loc.2).data])

/-- `clear_display()` (lines 168-175): send the clear command
(`CLEAR_DISPLAY = 1`), set `cursor_loc = [0, 0]`, clear `refresh_loc`. -/
def clear_display (s : LCDState) : LCDState × List (Nat × Nat) :=
  ({ s with cursor_loc := (0, 0), refresh_loc := [] }, [(1, 0)])

/-- `return_home()` (lines 177-183). -/
def return_home (s : LCDState) : LCDState × List (Nat × Nat) :=
  ({ s with cursor_loc := (0, 0) }, [(2, 0)])

/-- `set_backlight(enable)` (lines 153-166): update the backlight bit, then
send a zero command byte. -/
def set_backlight (s : LCDState) (enable : Bool) : LCDState × List (Nat × Nat) :=
  ({ s with backlight := if enable then 8 else 0 }, [(0, 0)])

/-! ## `set_row` -/

/-- `"{:20}".format(text)`: left-justify, padding on the right with spaces
(code 32) to a minimum width of 20; longer texts are NOT truncated. -/
def padFormat (t : List Nat) : List Nat :=
  t ++ List.replicate (20 - t.length) 32

/-- The 20 characters `set_row` actually reads: columns 0..19 of the padded
text, i.e. the first 20 characters of `t` right-padded with spaces. -/
def padTrunc (t : List Nat) : List Nat :=
  (padFormat t).take 20

/-- Character code at column `c` of the padded text. -/
def padChar (t : List Nat) (c : Nat) : Nat :=
  (padFormat t).getD c 32

/-- One iteration of the `set_row` loop (lines 308-311) at column `col`,
where `t` is the already-formatted text: if
`ord(text[col]) != self.ddram_value[row][col]`, store the code and append
`[row, col]` to `refresh_loc`.  (`t` always has length at least 20, so the
`getD` default is never reached.) -/
def setRowStep (row : Nat) (t : List Nat) (st : LCDState) (col : Nat) : LCDState :=
  if pyNe (t.getD col 32) (cellAt st row col) then
    { st with
      ddram_value :=
        st.ddram_value.set row ((rowVals st row).set col (Cell.code (t.getD col 32)))
      refresh_loc := st.refresh_loc ++ [(row, col)] }
  else st

/-- `set_row(row, text)` (lines 293-311): format the text to width 20, then
run the column loop for `col in range(0, 20)`. -/
def set_row (s : LCDState) (row : Nat) (text : List Nat) : LCDState :=
  (List.range 20).foldl (setRowStep row (padFormat text)) s

/-! ## Shape of reachable states -/

/-- The grid invariant established by `__init__`: four rows of twenty cells. -/
def goodShape (s : LCDState) : Prop :=
  s.ddram_value.length = 4 ∧ ∀ r < 4, (rowVals s r).length = 20

instance (s : LCDState) : Decidable (goodShape s) := by
  unfold goodShape; infer_instance

/-! ## List helpers -/

theorem getD_set_self {α : Type} : ∀ (l : List α) (i : Nat) (v d : α),
    i < l.length → (l.set i v).getD i d = v
  | [], i, _, _, h => absurd h (Nat.not_lt_zero i)
  | _ :: _, 0, _, _, _ => rfl
  | _ :: l, i + 1, v, d, h => getD_set_self l i v d (Nat.lt_of_succ_lt_succ h)

theorem getD_set_ne {α : Type} : ∀ (l : List α) (i j : Nat) (v d : α),
    i ≠ j → (l.set i v).getD j d = l.getD j d
  | [], _, _, _, _, _ => rfl
  | _ :: _, 0, 0, _, _, h => absurd rfl h
  | _ :: _, 0, _ + 1, _, _, _ => rfl
  | _ :: _, _ + 1, 0, _, _, _ => rfl
  | _ :: l, i + 1, j + 1, v, d, h =>
      getD_set_ne l i j v d (fun hij => h (congrArg Nat.succ hij))

theorem set_oob {α : Type} : ∀ (l : List α) (i : Nat) (v : α),
    l.length ≤ i → l.set i v = l
  | [], _, _, _ => rfl
  | _ :: _, 0, _, h => absurd h (Nat.not_succ_le_zero _)
  | a :: l, i + 1, v, h =>
      congrArg (a :: ·) (set_oob l i v (Nat.le_of_succ_le_succ h))

/-! ## Facts about one `set_row` loop iteration -/

theorem setRowStep_backlight (row : Nat) (t : List Nat) (st : LCDState) (col : Nat) :
    (setRowStep row t st col).backlight = st.backlight := by
  unfold setRowStep; split <;> rfl

theorem setRowStep_ddram_map (row : Nat) (t : List Nat) (st : LCDState) (col : Nat) :
    (setRowStep row t st col).ddram_map = st.ddram_map := by
  unfold setRowStep; split <;> rfl

theorem setRowStep_cursor_loc (row : Nat) (t : List Nat) (st : LCDState) (col : Nat) :
    (setRowStep row t st col).cursor_loc = st.cursor_loc := by
  unfold setRowStep; split <;> rfl

theorem setRowStep_value_length (row : Nat) (t : List Nat) (st : LCDState) (col : Nat) :
    (setRowStep row t st col).ddram_value.length = st.ddram_value.length := by
  unfold setRowStep; split
  · exact List.length_set ..
  · rfl

theorem rowVals_setRowStep_ne (row : Nat) (t : List Nat) (st : LCDState) (col r : Nat)
    (h : r ≠ row) : rowVals (setRowStep row t st col) r = rowVals st r := by
  unfold setRowStep; split
  · exact getD_set_ne _ _ _ _ _ (Ne.symm h)
  · rfl

theorem rowVals_setRowStep_length (row : Nat) (t : List Nat) (st : LCDState) (col r : Nat) :
    (rowVals (setRowStep row t st col) r).length = (rowVals st r).length := by
  by_cases hr : r = row
  · subst hr
    unfold setRowStep; split
    · by_cases hrow : r < st.ddram_value.length
      · show ((st.ddram_value.set r _).getD r []).length = _
        rw [getD_set_self _ _ _ _ hrow, List.length_set]
      · show ((st.ddram_value.set r _).getD r []).length = _
        rw [set_oob _ _ _ (Nat.le_of_not_lt hrow)]
        rfl
    · rfl
  · rw [rowVals_setRowStep_ne _ _ _ _ _ hr]

theorem pyNe_false_iff (x : Nat) (c : Cell) : pyNe x c = false ↔ c = Cell.code x := by
  cases c with
  | chrStr => simp [pyNe]
  | code m =>
    simp only [pyNe, bne_eq_false_iff_eq, Cell.code.injEq]
    exact eq_comm

theorem cellAt_setRowStep_self (row : Nat) (t : List Nat) (st : LCDState) (col : Nat)
    (hrow : row < st.ddram_value.length) (hcol : col < (rowVals st row).length) :
    cellAt (setRowStep row t st col) row col = Cell.code (t.getD col 32) := by
  unfold setRowStep; split
  · show (((st.ddram_value.set row _).getD row []).getD col _) = _
    rw [getD_set_self _ _ _ _ hrow, getD_set_self _ _ _ _ hcol]
  · rename_i hne
    have := (pyNe_false_iff (t.getD col 32) (cellAt st row col)).1
      (Bool.of_not_eq_true hne)
    exact this

theorem cellAt_setRowStep_ne (row : Nat) (t : List Nat) (st : LCDState) (col r c : Nat)
    (h : r ≠ row ∨ c ≠ col) : cellAt (setRowStep row t st col) r c = cellAt st r c := by
  rcases h with hr | hc
  · unfold cellAt
    rw [rowVals_setRowStep_ne _ _ _ _ _ hr]
  · unfold setRowStep; split
    · show (((st.ddram_value.set row _).getD r []).getD c _) = _
      by_cases hr : r = row
      · subst hr
        by_cases hrow : r < st.ddram_value.length
        · rw [getD_set_self _ _ _ _ hrow, getD_set_ne _ _ _ _ _ (Ne.symm hc)]
          rfl
        · rw [set_oob _ _ _ (Nat.le_of_not_lt hrow)]
          rfl
      · rw [getD_set_ne _ _ _ _ _ (fun he => hr he.symm)]
        rfl
    · rfl

theorem refresh_loc_setRowStep (row : Nat) (t : List Nat) (st : LCDState) (col : Nat) :
    (setRowStep row t st col).refresh_loc =
      st.refresh_loc ++
        (if pyNe (t.getD col 32) (cellAt st row col) then [(row, col)] else []) := by
  unfold setRowStep; split <;> simp_all

/-! ## Characterization of the `set_row` column loop -/

theorem fold_backlight (row : Nat) (t : List Nat) :
    ∀ (cols : List Nat) (s : LCDState),
      (cols.foldl (setRowStep row t) s).backlight = s.backlight
  | [], _ => rfl
  | col :: cols, s => by
      rw [List.foldl_cons, fold_backlight row t cols, setRowStep_backlight]

theorem fold_ddram_map (row : Nat) (t : List Nat) :
    ∀ (cols : List Nat) (s : LCDState),
      (cols.foldl (setRowStep row t) s).ddram_map = s.ddram_map
  | [], _ => rfl
  | col :: cols, s => by
      rw [List.foldl_cons, fold_ddram_map row t cols, setRowStep_ddram_map]

theorem fold_cursor_loc (row : Nat) (t : List Nat) :
    ∀ (cols : List Nat) (s : LCDState),
      (cols.foldl (setRowStep row t) s).cursor_loc = s.cursor_loc
  | [], _ => rfl
  | col :: cols, s => by
      rw [List.foldl_cons, fold_cursor_loc row t cols, setRowStep_cursor_loc]

theorem fold_value_length (row : Nat) (t : List Nat) :
    ∀ (cols : List Nat) (s : LCDState),
      (cols.foldl (setRowStep row t) s).ddram_value.length = s.ddram_value.length
  | [], _ => rfl
  | col :: cols, s => by
      rw [List.foldl_cons, fold_value_length row t cols, setRowStep_value_length]

theorem fold_rowVals_length (row : Nat) (t : List Nat) :
    ∀ (cols : List Nat) (s : LCDState) (r : Nat),
      (rowVals (cols.foldl (setRowStep row t) s) r).length = (rowVals s r).length
  | [], _, _ => rfl
  | col :: cols, s, r => by
      rw [List.foldl_cons, fold_rowVals_length row t cols, rowVals_setRowStep_length]

theorem fold_cellAt_ne (row : Nat) (t : List Nat) :
    ∀ (cols : List Nat) (s : LCDState) (r c : Nat), (r ≠ row ∨ c ∉ cols) →
      cellAt (cols.foldl (setRowStep row t) s) r c = cellAt s r c
  | [], _, _, _, _ => rfl
  | col :: cols, s, r, c, h => by
      rw [List.foldl_cons]
      have htl : r ≠ row ∨ c ∉ cols := by
        rcases h with h | h
        · exact Or.inl h
        · exact Or.inr (fun hc => h (List.mem_cons_of_mem _ hc))
      have hhd : r ≠ row ∨ c ≠ col := by
        rcases h with h | h
        · exact Or.inl h
        · exact Or.inr (fun hc => h (hc ▸ List.mem_cons_self _ _))
      rw [fold_cellAt_ne row t cols _ _ _ htl, cellAt_setRowStep_ne _ _ _ _ _ _ hhd]

theorem fold_cellAt_mem (row : Nat) (t : List Nat) :
    ∀ (cols : List Nat) (s : LCDState), cols.Nodup →
      row < s.ddram_value.length →
      (∀ c ∈ cols, c < (rowVals s row).length) →
      ∀ c ∈ cols, cellAt (cols.foldl (setRowStep row t) s) row c = Cell.code (t.getD c 32)
  | [], _, _, _, _ => by intro c hc; cases hc
  | col :: cols, s, hnd, hrow, hbound => by
      intro c hc
      rw [List.foldl_cons]
      have hnd' := List.nodup_cons.1 hnd
      rcases List.mem_cons.1 hc with rfl | hmem
      · rw [fold_cellAt_ne row t cols _ _ _ (Or.inr hnd'.1)]
        exact cellAt_setRowStep_self row t s c hrow
          (hbound c (List.mem_cons_self _ _))
      · refine fold_cellAt_mem row t cols (setRowStep row t s col) hnd'.2 ?_ ?_ c hmem
        · rw [setRowStep_value_length]; exact hrow
        · intro c' hc'
          rw [rowVals_setRowStep_length]
          exact hbound c' (List.mem_cons_of_mem _ hc')

theorem fold_refresh_loc (row : Nat) (t : List Nat) :
    ∀ (cols : List Nat) (s : LCDState), cols.Nodup →
      (cols.foldl (setRowStep row t) s).refresh_loc =
        s.refresh_loc ++
          (cols.filter (fun c => pyNe (t.getD c 32) (cellAt s row c))).map
            (fun c => (row, c))
  | [], s, _ => by simp
  | col :: cols, s, hnd => by
      have hnd' := List.nodup_cons.1 hnd
      rw [List.foldl_cons, fold_refresh_loc row t cols _ hnd'.2, refresh_loc_setRowStep,
        List.filter_cons]
      have hcells : ∀ c ∈ cols,
          pyNe (t.getD c 32) (cellAt (setRowStep row t s col) row c) =
            pyNe (t.getD c 32) (cellAt s row c) := by
        intro c hc
        have hne : c ≠ col := fun he => hnd'.1 (he ▸ hc)
        rw [cellAt_setRowStep_ne _ _ _ _ _ _ (Or.inr hne)]
      rw [List.filter_congr hcells]
      by_cases hp : pyNe (t.getD col 32) (cellAt s row col) = true
      · simp only [List.getD] at hp ⊢
        rw [if_pos hp, if_pos hp]
        simp
      · simp only [List.getD] at hp ⊢
        rw [if_neg hp, if_neg hp]
        simp

/-! ## `set_row` corollaries -/

theorem set_row_refresh_loc (s : LCDState) (row : Nat) (text : List Nat) :
    (set_row s row text).refresh_loc =
      s.refresh_loc ++
        ((List.range 20).filter (fun c => pyNe (padChar text c) (cellAt s row c))).map
          (fun c => (row, c)) :=
  fold_refresh_loc row (padFormat text) (List.range 20) s (List.nodup_range 20)

theorem set_row_backlight (s : LCDState) (row : Nat) (text : List Nat) :
    (set_row s row text).backlight = s.backlight :=
  fold_backlight row (padFormat text) (List.range 20) s

theorem set_row_ddram_map (s : LCDState) (row : Nat) (text : List Nat) :
    (set_row s row text).ddram_map = s.ddram_map :=
  fold_ddram_map row (padFormat text) (List.range 20) s

theorem set_row_cursor_loc (s : LCDState) (row : Nat) (text : List Nat) :
    (set_row s row text).cursor_loc = s.cursor_loc :=
  fold_cursor_loc row (padFormat text) (List.range 20) s

theorem set_row_goodShape (s : LCDState) (row : Nat) (text : List Nat)
    (hs : goodShape s) : goodShape (set_row s row text) := by
  constructor
  · rw [set_row, fold_value_length]; exact hs.1
  · intro r hr
    rw [set_row, fold_rowVals_length]; exact hs.2 r hr

theorem set_row_cellAt (s : LCDState) (row : Nat) (text : List Nat) (c : Nat)
    (hs : goodShape s) (hrow : row < 4) (hc : c < 20) :
    cellAt (set_row s row text) row c = Cell.code (padChar text c) := by
  refine fold_cellAt_mem row (padFormat text) (List.range 20) s (List.nodup_range 20)
    ?_ ?_ c (List.mem_range.2 hc)
  · rw [hs.1]; exact hrow
  · intro c' hc'
    rw [hs.2 row hrow]; exact List.mem_range.1 hc'

theorem set_row_cellAt_ne (s : LCDState) (row : Nat) (text : List Nat) (r c : Nat)
    (h : r ≠ row ∨ 20 ≤ c) :
    cellAt (set_row s row text) r c = cellAt s r c := by
  refine fold_cellAt_ne row (padFormat text) (List.range 20) s r c ?_
  rcases h with h | h
  · exact Or.inl h
  · exact Or.inr (fun hc =>
      Nat.lt_irrefl c (Nat.lt_of_lt_of_le (List.mem_range.1 hc) h))

theorem padTrunc_length (t : List Nat) : (padTrunc t).length = 20 := by
  simp [padTrunc, padFormat]
  omega

theorem padChar_eq_getElem (t : List Nat) (i : Nat) (h : i < (padFormat t).length) :
    padChar t i = (padFormat t)[i] :=
  List.getD_eq_getElem (padFormat t) 32 h

theorem padFormat_length_ge (t : List Nat) : 20 ≤ (padFormat t).length := by
  simp [padFormat]
  omega

theorem set_row_rowVals (s : LCDState) (row : Nat) (text : List Nat)
    (hs : goodShape s) (hrow : row < 4) :
    rowVals (set_row s row text) row = (padTrunc text).map Cell.code := by
  have hlen : (rowVals (set_row s row text) row).length = 20 := by
    rw [set_row, fold_rowVals_length]; exact hs.2 row hrow
  apply List.ext_getElem
  · rw [hlen, List.length_map, padTrunc_length]
  · intro i h1 h2
    have hi : i < 20 := by rw [hlen] at h1; exact h1
    have hfmt : i < (padFormat text).length :=
      Nat.lt_of_lt_of_le hi (padFormat_length_ge text)
    have hcell := set_row_cellAt s row text i hs hrow hi
    rw [cellAt, ← List.getD_eq_getElem (rowVals (set_row s row text) row) Cell.chrStr h1]
      at *
    rw [hcell, List.getElem_map]
    simp only [padTrunc]
    rw [List.getElem_take, padChar_eq_getElem _ _ hfmt]

theorem padTrunc_eq (t : List Nat) :
    padTrunc t = t.take 20 ++ List.replicate (20 - t.length) 32 := by
  rw [padTrunc, padFormat, List.take_append_eq_append_take, List.take_replicate]
  have : min (20 - t.length) (20 - t.length) = 20 - t.length := Nat.min_self _
  rw [this]

/-! ## `refresh` / `clear_display` facts -/

theorem refresh_ddram_value (s : LCDState) : (refresh s).1.ddram_value = s.ddram_value :=
  rfl

theorem refresh_refresh_loc (s : LCDState) : (refresh s).1.refresh_loc = [] :=
  rfl

theorem refresh_goodShape (s : LCDState) (hs : goodShape s) : goodShape (refresh s).1 :=
  hs

theorem cellAt_refresh (s : LCDState) (r c : Nat) :
    cellAt (refresh s).1 r c = cellAt s r c :=
  rfl

theorem refresh_snd (s : LCDState) :
    (refresh s).2 =
      s.refresh_loc.flatMap
        (fun loc => [(128 ||| mapAddr s loc.1 loc.2, 0),
                     ((cellAt s loc.1 loc.2).data, 1)]) :=
  rfl

theorem count_data_writes (f g : Nat × Nat → Nat) :
    ∀ l : List (Nat × Nat),
      ((l.flatMap fun rc => [(f rc, 0), (g rc, 1)]).filter (fun e => e.2 == 1)).length =
        l.length
  | [] => rfl
  | rc :: l => by
      rw [List.flatMap_cons, List.filter_append]
      simp [count_data_writes f g l]

theorem fold_rowVals_ne (row : Nat) (t : List Nat) :
    ∀ (cols : List Nat) (s : LCDState) (r : Nat), r ≠ row →
      rowVals (cols.foldl (setRowStep row t) s) r = rowVals s r
  | [], _, _, _ => rfl
  | col :: cols, s, r, h => by
      rw [List.foldl_cons, fold_rowVals_ne row t cols _ _ h,
        rowVals_setRowStep_ne _ _ _ _ _ h]

theorem set_row_rowVals_ne (s : LCDState) (row : Nat) (text : List Nat) (r : Nat)
    (h : r ≠ row) : rowVals (set_row s row text) r = rowVals s r :=
  fold_rowVals_ne row (padFormat text) (List.range 20) s r h

theorem getD_replicate {α : Type} : ∀ (n i : Nat) (a d : α),
    i < n → (List.replicate n a).getD i d = a
  | 0, i, _, _, h => absurd h (Nat.not_lt_zero i)
  | _ + 1, 0, _, _, _ => rfl
  | n + 1, i + 1, a, d, h => getD_replicate n i a d (Nat.lt_of_succ_lt_succ h)

theorem cellAt_initState (r c : Nat) (hr : r < 4) (hc : c < 20) :
    cellAt initState r c = Cell.chrStr := by
  show ((List.replicate 4 (List.replicate 20 Cell.chrStr)).getD r []).getD c Cell.chrStr
    = Cell.chrStr
  rw [getD_replicate 4 r _ _ hr, getD_replicate 20 c _ _ hc]

theorem padTrunc_getD (t : List Nat) (c : Nat) (hc : c < 20) :
    (padTrunc t).getD c 32 = padChar t c := by
  have h1 : c < (padTrunc t).length := by rw [padTrunc_length]; exact hc
  have h2 : c < (padFormat t).length :=
    Nat.lt_of_lt_of_le hc (padFormat_length_ge t)
  rw [List.getD_eq_getElem _ _ h1, padChar_eq_getElem _ _ h2]
  simp only [padTrunc]
  rw [List.getElem_take]

theorem bne_swap (a b : Nat) : (a != b) = (b != a) := by
  by_cases h : a = b
  · subst h; rfl
  · rw [bne_iff_ne.2 h, bne_iff_ne.2 (Ne.symm h)]

/-! ## Public operations as a transition system

`Op` ranges over the methods that touch the mutable fields; `run` executes a
call sequence from the freshly constructed state. -/

inductive Op where
  | setRow (row : Nat) (text : List Nat) : Op
  | doRefresh : Op
  | clearDisplay : Op
  | returnHome : Op
  | setBacklight (b : Bool) : Op
deriving Repr, DecidableEq

def applyOp (s : LCDState) : Op → LCDState
  | .setRow r t => set_row s r t
  | .doRefresh => (refresh s).1
  | .clearDisplay => (clear_display s).1
  | .returnHome => (return_home s).1
  | .setBacklight b => (set_backlight s b).1

def run (ops : List Op) : LCDState :=
  ops.foldl applyOp initState

/-- The caller obligation assumed by the claim: `set_row` is only called
with `row` in `0..3`. -/
def rowOk : Op → Prop
  | .setRow r _ => r < 4
  | _ => True

/-- Every recorded dirty coordinate is a valid (row, column) pair. -/
def validLocs (s : LCDState) : Prop :=
  ∀ p ∈ s.refresh_loc, p.1 < 4 ∧ p.2 < 20

theorem validLocs_set_row (s : LCDState) (r : Nat) (t : List Nat)
    (hv : validLocs s) (hr : r < 4) : validLocs (set_row s r t) := by
  intro p hp
  rw [set_row_refresh_loc] at hp
  rcases List.mem_append.1 hp with h | h
  · exact hv p h
  · rcases List.mem_map.1 h with ⟨c, hc, rfl⟩
    exact ⟨hr, List.mem_range.1 (List.mem_of_mem_filter hc)⟩

theorem validLocs_foldl : ∀ (ops : List Op) (s : LCDState),
    validLocs s → (∀ op ∈ ops, rowOk op) → validLocs (ops.foldl applyOp s)
  | [], _, hv, _ => hv
  | op :: ops, s, hv, h => by
      rw [List.foldl_cons]
      refine validLocs_foldl ops _ ?_ (fun o ho => h o (List.mem_cons_of_mem _ ho))
      have hop := h op (List.mem_cons_self _ _)
      cases op with
      | setRow r t => exact validLocs_set_row s r t hv hop
      | doRefresh => exact fun p hp => absurd hp (List.not_mem_nil p)
      | clearDisplay => exact fun p hp => absurd hp (List.not_mem_nil p)
      | returnHome => exact hv
      | setBacklight b => exact hv

/-! ## Fallible transport

`refresh` with a bus that raises `TransportError` after `fuel` successful
byte writes.  `writeT` models one `i2c.writeto` call; the loop body of
`refresh` issues two `send`s (12 bus writes) per dirty cell and assigns no
field, and `refresh_loc.clear()` runs only after the loop finishes, so an
exception escapes with the instance fields untouched. -/

def writeT (fuel : Nat) : Except Unit Nat :=
  if fuel = 0 then Except.error () else Except.ok (fuel - 1)

def write4bitsT (fuel : Nat) : Except Unit Nat := do
  let f1 ← writeT fuel
  let f2 ← writeT f1
  writeT f2

def sendT (fuel : Nat) : Except Unit Nat := do
  let f1 ← write4bitsT fuel
  write4bitsT f1

/-- The `for loc in self.refresh_loc` loop: each iteration sends the DDRAM
address and then the data byte; an exception carries the (unmodified)
instance state out of the loop. -/
def refreshLoopT (s : LCDState) : List (Nat × Nat) → Nat → Except (Unit × LCDState) Nat
  | [], fuel => Except.ok fuel
  | _ :: rest, fuel =>
    match sendT fuel with
    | Except.error e => Except.error (e, s)
    | Except.ok f1 =>
      match sendT f1 with
      | Except.error e => Except.error (e, s)
      | Except.ok f2 => refreshLoopT s rest f2

/-- `refresh` over the fallible transport: the final `refresh_loc.clear()`
happens only when the loop completed. -/
def refreshT (fuel : Nat) (s : LCDState) : Except (Unit × LCDState) LCDState :=
  match refreshLoopT s s.refresh_loc fuel with
  | Except.error e => Except.error e
  | Except.ok _ => Except.ok { s with refresh_loc := [] }

theorem sendT_eq : ∀ fuel : Nat,
    sendT fuel = if fuel < 6 then Except.error () else Except.ok (fuel - 6)
  | 0 => rfl
  | 1 => rfl
  | 2 => rfl
  | 3 => rfl
  | 4 => rfl
  | 5 => rfl
  | _ + 6 => rfl

theorem refreshLoopT_err_state (s : LCDState) :
    ∀ (locs : List (Nat × Nat)) (fuel : Nat) (e : Unit) (s' : LCDState),
      refreshLoopT s locs fuel = Except.error (e, s') → s' = s
  | [], _, _, _, h => by cases h
  | _ :: rest, fuel, e, s', h => by
      unfold refreshLoopT at h
      split at h
      · cases h; rfl
      · split at h
        · cases h; rfl
        · exact refreshLoopT_err_state s rest _ e s' h

theorem refreshLoopT_ok_of_le (s : LCDState) :
    ∀ (locs : List (Nat × Nat)) (fuel : Nat), 12 * locs.length ≤ fuel →
      refreshLoopT s locs fuel = Except.ok (fuel - 12 * locs.length)
  | [], fuel, _ => by simp [refreshLoopT]
  | loc :: rest, fuel, h => by
      have hlen : 12 * (loc :: rest).length = 12 * rest.length + 12 := by
        rw [List.length_cons]; ring
      have h6 : ¬ fuel < 6 := by omega
      have h12 : ¬ fuel - 6 < 6 := by omega
      unfold refreshLoopT
      simp only [sendT_eq, if_neg h6, if_neg h12]
      rw [refreshLoopT_ok_of_le s rest (fuel - 6 - 6) (by omega)]
      congr 1
      omega

theorem refreshLoopT_err_of_lt (s : LCDState) :
    ∀ (locs : List (Nat × Nat)) (fuel : Nat), fuel < 12 * locs.length →
      refreshLoopT s locs fuel = Except.error ((), s)
  | [], fuel, h => absurd h (by simp)
  | loc :: rest, fuel, h => by
      unfold refreshLoopT
      by_cases h6 : fuel < 6
      · simp only [sendT_eq, if_pos h6]
      · by_cases h12 : fuel - 6 < 6
        · simp only [sendT_eq, if_neg h6, if_pos h12]
        · simp only [sendT_eq, if_neg h6, if_neg h12]
          refine refreshLoopT_err_of_lt s rest (fuel - 6 - 6) ?_
          have hlen : 12 * (loc :: rest).length = 12 * rest.length + 12 := by
            rw [List.length_cons]; ring
          omega

/-! ## Claims -/

/-- C1: Diff minimality.  For every row `r` in `0..3` and all texts `T1`,
`T2`, after `set_row(r, T1)` followed by `refresh()`, a subsequent call
`set_row(r, T2)` leaves the Dirty Set containing exactly the coordinates
`(r, i)` for the columns `i` in `0..19` at which the 20-character
padded/truncated forms of `T1` and `T2` differ, and no other entries. -/
theorem C1_diff_minimality (s : LCDState) (r : Nat) (t1 t2 : List Nat)
    (hs : goodShape s) (hr : r < 4) :
    (set_row (refresh (set_row s r t1)).1 r t2).refresh_loc =
      ((List.range 20).filter
        (fun i => (padTrunc t1).getD i 32 != (padTrunc t2).getD i 32)).map
        (fun i => (r, i)) := by
  rw [set_row_refresh_loc, refresh_refresh_loc, List.nil_append]
  refine congrArg (List.map (fun c => (r, c))) (List.filter_congr ?_)
  intro c hc
  have hc20 : c < 20 := List.mem_range.1 hc
  have hcell : cellAt (refresh (set_row s r t1)).1 r c = Cell.code (padChar t1 c) := by
    rw [cellAt_refresh]
    exact set_row_cellAt s r t1 c hs hr hc20
  show pyNe (padChar t2 c) (cellAt (refresh (set_row s r t1)).1 r c) = _
  rw [hcell]
  show (padChar t2 c != padChar t1 c) = _
  rw [padTrunc_getD t1 c hc20, padTrunc_getD t2 c hc20, bne_swap]

/-- C1 witness: concrete instantiation at `r = 0`, `T1 = "A"`, `T2 = "AB"`
from the freshly constructed state. -/
theorem C1_diff_minimality_witness :
    (set_row (refresh (set_row initState 0 [65])).1 0 [65, 66]).refresh_loc =
      ((List.range 20).filter
        (fun i => (padTrunc [65]).getD i 32 != (padTrunc [65, 66]).getD i 32)).map
        (fun i => ((0 : Nat), i)) :=
  C1_diff_minimality initState 0 [65] [65, 66] (by decide) (by decide)

/-- C2: Refresh contract.  `refresh()` walks the Dirty Set in insertion
order and, for each recorded `(row, column)`, issues exactly one
set-DDRAM-address command carrying the controller address mapped to that
cell followed by exactly one data write of the stored character code, so
the number of data writes equals the number of dirty cells; it then
empties the Dirty Set, and Display Memory at each cell of the written row
equals the last value passed to `set_row`. -/
theorem C2_refresh_contract (s : LCDState) (r : Nat) (t : List Nat) (c : Nat)
    (hs : goodShape s) (hr : r < 4) (hc : c < 20) :
    (refresh (set_row s r t)).2 =
      (set_row s r t).refresh_loc.flatMap
        (fun loc => [(128 ||| mapAddr (set_row s r t) loc.1 loc.2, 0),
                     ((cellAt (set_row s r t) loc.1 loc.2).data, 1)]) ∧
    (((refresh (set_row s r t)).2.filter (fun e => e.2 == 1)).length =
      (set_row s r t).refresh_loc.length) ∧
    (refresh (set_row s r t)).1.refresh_loc = [] ∧
    cellAt (refresh (set_row s r t)).1 r c = Cell.code (padChar t c) := by
  refine ⟨refresh_snd (set_row s r t), ?_, refresh_refresh_loc (set_row s r t), ?_⟩
  · rw [refresh_snd]
    exact count_data_writes
      (fun loc => 128 ||| mapAddr (set_row s r t) loc.1 loc.2)
      (fun loc => (cellAt (set_row s r t) loc.1 loc.2).data)
      (set_row s r t).refresh_loc
  · rw [cellAt_refresh]
    exact set_row_cellAt s r t c hs hr hc

/-- C2 witness: concrete instantiation at the fresh state, `r = 0`,
`T = "A"`, column 5. -/
theorem C2_refresh_contract_witness :
    (refresh (set_row initState 0 [65])).2 =
      (set_row initState 0 [65]).refresh_loc.flatMap
        (fun loc => [(128 ||| mapAddr (set_row initState 0 [65]) loc.1 loc.2, 0),
                     ((cellAt (set_row initState 0 [65]) loc.1 loc.2).data, 1)]) ∧
    (((refresh (set_row initState 0 [65])).2.filter (fun e => e.2 == 1)).length =
      (set_row initState 0 [65]).refresh_loc.length) ∧
    (refresh (set_row initState 0 [65])).1.refresh_loc = [] ∧
    cellAt (refresh (set_row initState 0 [65])).1 0 5 = Cell.code (padChar [65] 5) :=
  C2_refresh_contract initState 0 [65] 5 (by decide) (by decide) (by decide)

/-- C3 counterexample: `set_row(0, "A")` on the fresh driver does change
the `ddram_value` grid, so the grid is not identical before and after a
`set_row` call. -/
theorem C3_counterexample :
    ¬ ((set_row initState 0 [65]).ddram_value = initState.ddram_value) := by
  decide

/-- C3 amended: the single `ddram_value` grid (serving as both desired and
display memory) is left unchanged by `refresh`, `clear_display`,
`return_home` and `set_backlight`, but `set_row(r, T)` does mutate it: row
`r` becomes the character codes of the padded/truncated `T`, other rows
are unchanged. -/
theorem C3_display_memory_frame (s : LCDState) (r r' : Nat) (t : List Nat)
    (hs : goodShape s) (hr : r < 4) (hne : r' ≠ r) :
    (refresh s).1.ddram_value = s.ddram_value ∧
    (clear_display s).1.ddram_value = s.ddram_value ∧
    (return_home s).1.ddram_value = s.ddram_value ∧
    (set_backlight s true).1.ddram_value = s.ddram_value ∧
    (set_backlight s false).1.ddram_value = s.ddram_value ∧
    rowVals (set_row s r t) r' = rowVals s r' ∧
    rowVals (set_row s r t) r = (padTrunc t).map Cell.code :=
  ⟨rfl, rfl, rfl, rfl, rfl, set_row_rowVals_ne s r t r' hne,
   set_row_rowVals s r t hs hr⟩

/-- C3 amended witness: concrete instantiation at the fresh state with
`r = 0`, `r' = 1`, `T = "A"`. -/
theorem C3_display_memory_frame_witness :
    (refresh initState).1.ddram_value = initState.ddram_value ∧
    (clear_display initState).1.ddram_value = initState.ddram_value ∧
    (return_home initState).1.ddram_value = initState.ddram_value ∧
    (set_backlight initState true).1.ddram_value = initState.ddram_value ∧
    (set_backlight initState false).1.ddram_value = initState.ddram_value ∧
    rowVals (set_row initState 0 [65]) 1 = rowVals initState 1 ∧
    rowVals (set_row initState 0 [65]) 0 = (padTrunc [65]).map Cell.code :=
  C3_display_memory_frame initState 0 1 [65] (by decide) (by decide) (by decide)

/-- C4 counterexample: on the freshly constructed driver,
`set_row(0, "")` does append coordinates to the Dirty Set (all 20 of
them), because the constructor stored the space *string*, which the code
compares unequal to every character code. -/
theorem C4_counterexample :
    ¬ ((set_row initState 0 []).refresh_loc = []) := by
  decide

/-- C4 amended: on a freshly constructed driver, `set_row(r, T)` with a
text whose 20-character padded form is all spaces appends ALL 20
coordinates `(r, 0) .. (r, 19)` to the Dirty Set: the initial stored
values are the space string `" "`, not the code 32, and the `int != str`
comparison in `set_row` is always true. -/
theorem C4_fresh_all_dirty (r : Nat) (t : List Nat) (hr : r < 4)
    (_ht : padTrunc t = List.replicate 20 32) :
    (set_row initState r t).refresh_loc = (List.range 20).map (fun c => (r, c)) := by
  rw [set_row_refresh_loc]
  have h0 : initState.refresh_loc = [] := rfl
  rw [h0, List.nil_append]
  refine congrArg (List.map (fun c => (r, c))) (List.filter_eq_self.2 ?_)
  intro c hcmem
  show pyNe (padChar t c) (cellAt initState r c) = true
  rw [cellAt_initState r c hr (List.mem_range.1 hcmem)]
  rfl

/-- C4 amended witness: `set_row(0, "")` on the fresh driver dirties all
twenty columns of row 0. -/
theorem C4_fresh_all_dirty_witness :
    (set_row initState 0 []).refresh_loc =
      (List.range 20).map (fun c => ((0 : Nat), c)) :=
  C4_fresh_all_dirty 0 [] (by decide) (by decide)

/-- C5: after `clear_display()` the tracked cursor location is `(0, 0)`
and the Dirty Set is empty, while the Display Memory mirror is left
unchanged, in every state. -/
theorem C5_clear_display (s : LCDState) :
    (clear_display s).1.cursor_loc = (0, 0) ∧
    (clear_display s).1.refresh_loc = [] ∧
    (clear_display s).1.ddram_value = s.ddram_value :=
  ⟨rfl, rfl, rfl⟩

/-- C6: address mapping exactness.  For every row `r` in `0..3` and column
`i` in `0..19`, the controller address for cell `(r, i)` is `base_r + i`
with bases 128, 192, 148, 212. -/
theorem C6_address_mapping :
    ∀ r < 4, ∀ i < 20, mapAddr initState r i = [128, 192, 148, 212].getD r 0 + i := by
  decide

/-- C6 witness: row 2, column 5 maps to address 153. -/
theorem C6_address_mapping_witness : mapAddr initState 2 5 = 148 + 5 :=
  C6_address_mapping 2 (by decide) 5 (by decide)

/-- C7: round-trip of the byte transport.  For every byte and mode in
`{command = 0, data = 1}` (and either backlight state), `send` performs
exactly six bus writes, and from the two setup writes (positions 0 and 3)
the original byte and mode are recovered. -/
theorem C7_send_round_trip :
    ∀ m bl : Nat, (m = 0 ∨ m = 1) → (bl = 0 ∨ bl = 8) → ∀ b < 256,
      (send bl b m).length = 6 ∧
      decodeSend ((send bl b m).getD 0 0) ((send bl b m).getD 3 0) = (b, m) := by
  intro m bl hm hbl
  rcases hm with rfl | rfl <;> rcases hbl with rfl | rfl <;> decide

/-- C7 witness: byte 65 sent as data with the backlight on. -/
theorem C7_send_round_trip_witness :
    (send 8 65 1).length = 6 ∧
    decodeSend ((send 8 65 1).getD 0 0) ((send 8 65 1).getD 3 0) = (65, 1) :=
  C7_send_round_trip 1 8 (Or.inr rfl) (Or.inr rfl) 65 (by decide)

/-- C8: padding and truncation.  After `set_row(r, T)` the 20 stored
values for row `r` are exactly the character codes of the first 20
characters of `T` padded on the right with spaces to length 20. -/
theorem C8_padding_truncation (s : LCDState) (r : Nat) (t : List Nat)
    (hs : goodShape s) (hr : r < 4) :
    rowVals (set_row s r t) r =
      (t.take 20 ++ List.replicate (20 - t.length) 32).map Cell.code := by
  rw [set_row_rowVals s r t hs hr, padTrunc_eq]

/-- C8 witness: a 25-character text is cut to its first 20 characters. -/
theorem C8_padding_truncation_witness :
    rowVals (set_row initState 1 (List.replicate 25 65)) 1 =
      ((List.replicate 25 65).take 20 ++
        List.replicate (20 - (List.replicate 25 65).length) 32).map Cell.code :=
  C8_padding_truncation initState 1 (List.replicate 25 65) (by decide) (by decide)

/-- C9: Dirty Set validity invariant.  If every `set_row` call uses a row
in `0..3`, then after any call sequence from the fresh state, every entry
`(r, c)` of the Dirty Set satisfies `r < 4` and `c < 20`. -/
theorem C9_dirty_set_valid (ops : List Op) (h : ∀ op ∈ ops, rowOk op) :
    validLocs (run ops) :=
  validLocs_foldl ops initState (fun p hp => absurd hp (List.not_mem_nil p)) h

/-- C9 witness: a concrete two-call sequence. -/
theorem C9_dirty_set_valid_witness :
    validLocs (run [Op.setRow 2 [72, 105], Op.setRow 0 []]) := by
  refine C9_dirty_set_valid _ ?_
  intro op hop
  rcases List.mem_cons.1 hop with rfl | hop2
  · exact (by decide : (2 : Nat) < 4)
  · rcases List.mem_cons.1 hop2 with rfl | hop3
    · exact (by decide : (0 : Nat) < 4)
    · exact absurd hop3 (List.not_mem_nil op)

/-- C10: atomicity of `refresh` on transport failure.  If a bus write
raises during `refresh()`, the exception propagates with the Dirty Set
still containing every entry it held on entry (the single clear runs only
after the loop), so a later `refresh()` with a working bus succeeds and
re-issues exactly the same pending writes. -/
theorem C10_refresh_atomicity (fuel f2 : Nat) (s s' : LCDState) (e : Unit)
    (h : refreshT fuel s = Except.error (e, s'))
    (hf2 : 12 * s'.refresh_loc.length ≤ f2) :
    s'.refresh_loc = s.refresh_loc ∧
    refreshT f2 s' = Except.ok { s' with refresh_loc := [] } ∧
    (refresh s').2 = (refresh s).2 := by
  have hs' : s' = s := by
    unfold refreshT at h
    split at h
    · rename_i e' heq
      cases h
      exact refreshLoopT_err_state s s.refresh_loc fuel e s' heq
    · cases h
  subst hs'
  refine ⟨rfl, ?_, rfl⟩
  simp only [refreshT, refreshLoopT_ok_of_le _ _ _ hf2]

/-- C10 witness: with one row freshly written (20 dirty cells) and fuel
for only 5 bus writes, `refresh` fails leaving the Dirty Set intact; a
retry with 240 writes of fuel succeeds and clears it. -/
theorem C10_refresh_atomicity_witness :
    (set_row initState 0 [65]).refresh_loc = (set_row initState 0 [65]).refresh_loc ∧
    refreshT 240 (set_row initState 0 [65]) =
      Except.ok { set_row initState 0 [65] with refresh_loc := [] } ∧
    (refresh (set_row initState 0 [65])).2 = (refresh (set_row initState 0 [65])).2 :=
  C10_refresh_atomicity 5 240 (set_row initState 0 [65]) (set_row initState 0 [65]) ()
    rfl (by decide)

end CharLCD
